import Mathlib

/-!
Verification of the natural-language specification of the
ecommerce-product-counter repository against a shallow embedding of its
TypeScript source.

The repository contains two variants of a `ProductCounter` React component:
a multi-page crawl flow (`src/unnamed/part_001`) and a single-page combined
text+screenshot flow (`src/src/components/ProductCounter.tsx`), sharing the
data model of `src/unnamed/part_000`.  External services (page scraping,
screenshot capture, generative-model calls, URL parsing) are modelled as
explicit inputs (oracles); all in-repository computation is translated
function-for-function below.
-/

namespace ProductCounter

/-! ### Data model (src/unnamed/part_000) -/

/-- Status of one per-page result (`PageAnalysis.status` in the source:
the literals 'completed' | 'failed' | 'skipped'). -/
inductive PageStatus where
  | completed
  | failed
  | skipped
deriving DecidableEq, Repr

/-- Status of a whole analysis run (`AnalysisResult.status` in the source:
the literals 'completed' | 'partial' | 'failed'; the middle one is named
`mixed` here because its TypeScript name is not a legal identifier choice
in this development). -/
inductive ResultStatus where
  | completed
  | mixed
  | failed
deriving DecidableEq, Repr

/-- One per-page result (`PageAnalysis` in src/unnamed/part_000).
JavaScript numbers are modelled as `Nat` for the product count and `ℚ` for
the confidence score. -/
structure PageAnalysis where
  url : String
  productCount : Nat
  categories : List String
  confidence : ℚ
  evidence : List String
  pageType : String
  title : String
  status : PageStatus
  errorMessage : Option String
deriving DecidableEq, Repr

/-- The `details` block of an `AnalysisResult` (src/unnamed/part_000).
The two `Record<string, number>` fields are modelled as insertion-ordered
association lists, matching JavaScript object key semantics. -/
structure AnalysisDetails where
  totalProducts : Nat
  productsByCategory : List (String × Nat)
  analysisMethod : String
  confidence : ℚ
  pageBreakdown : List (String × Nat)
deriving DecidableEq, Repr

/-- The final result of a run (`AnalysisResult` in src/unnamed/part_000). -/
structure AnalysisResult where
  totalProductCount : Nat
  pagesAnalyzed : Nat
  pageResults : List PageAnalysis
  sitemap : List String
  summary : String
  status : ResultStatus
  details : AnalysisDetails
deriving DecidableEq, Repr

/-! ### JavaScript-semantics helpers -/

/-- JavaScript `s || d` for an optional string: `undefined`/`null` and the
empty string are falsy and give the default. -/
def jsOrStr (s : Option String) (d : String) : String :=
  match s with
  | some v => if v = "" then d else v
  | none => d

/-- JavaScript `Math.round`: for every finite number, round half toward
positive infinity, i.e. `⌊q + 1/2⌋`. -/
def jsRound (q : ℚ) : ℤ :=
  ⌊q + 1 / 2⌋

/-- JavaScript object assignment `m[k] = v`: overwrite the value if the key
exists (keeping key order), else append the new key. -/
def recordSet (m : List (String × Nat)) (k : String) (v : Nat) : List (String × Nat) :=
  if m.any (fun kv => decide (kv.1 = k)) then
    m.map (fun kv => if kv.1 = k then (k, v) else kv)
  else m ++ [(k, v)]

/-- JavaScript `m[k] || 0`: value of key `k`, defaulting to 0. -/
def recordGetD (m : List (String × Nat)) (k : String) : Nat :=
  match m.find? (fun kv => decide (kv.1 = k)) with
  | some kv => kv.2
  | none => 0

/-- JavaScript `m[k] = (m[k] || 0) + v` (the `categoryBreakdown` update in
src/unnamed/part_001, line 422). -/
def recordAdd (m : List (String × Nat)) (k : String) (v : Nat) : List (String × Nat) :=
  recordSet m k (recordGetD m k + v)

/-! ### Per-page analysis, multi-page flow (src/unnamed/part_001, lines 204-336) -/

/-- The typed object returned by the structured generative-model call of
`analyzePageForProducts` (its JSON schema, src/unnamed/part_001 lines
285-301).  Every field is optional here so that the `|| default` fallbacks
in the source are modelled faithfully. -/
structure PageAiAnalysis where
  productCount : Option Nat
  pageType : Option String
  categories : Option (List String)
  confidence : Option ℚ
  evidence : Option (List String)
  reasoning : Option String
  hasPagination : Option Bool
  totalProductsIfPaginated : Option Nat
deriving DecidableEq, Repr

/-- Outcome of `blink.data.scrape(pageUrl)`: either the call throws with a
message, or it returns markdown content and metadata title (each possibly
absent). -/
inductive ScrapeOutcome where
  | fetchFail (msg : String)
  | fetched (markdown : Option String) (title : Option String)
deriving DecidableEq, Repr

/-- Outcome of `blink.ai.generateObject` for one page: either the call
throws with a message, or it returns a typed analysis object. -/
inductive AiOutcome where
  | aiFail (msg : String)
  | aiOk (a : PageAiAnalysis)
deriving DecidableEq, Repr

/-- The guard `!markdown || markdown.length < 100` of
src/unnamed/part_001 line 219 (a missing or empty markdown string is falsy;
an empty string also has length < 100). -/
def shortContent : Option String → Bool
  | none => true
  | some md => decide (md.length < 100)

/-- Shallow embedding of `analyzePageForProducts`
(src/unnamed/part_001 lines 204-336).  The scrape and model calls are
oracle inputs; every branch mirrors one `return` of the source, including
the catch-all error branch that turns a thrown error into a failed
`PageAnalysis` instead of propagating it. -/
def analyzePageForProducts (pageUrl : String) (scrape : ScrapeOutcome)
    (ai : AiOutcome) : PageAnalysis :=
  match scrape with
  | .fetchFail msg =>
      { url := pageUrl
        productCount := 0
        categories := []
        confidence := 0
        evidence := ["Analysis failed: " ++ msg]
        pageType := "unknown"
        title := "Unknown"
        status := .failed
        errorMessage := some msg }
  | .fetched markdown title =>
      if shortContent markdown then
        { url := pageUrl
          productCount := 0
          categories := []
          confidence := 0
          evidence := ["No content could be scraped from this page"]
          pageType := "unknown"
          title := jsOrStr title "Unknown"
          status := .failed
          errorMessage := some "Could not scrape page content" }
      else
        match ai with
        | .aiFail msg =>
            { url := pageUrl
              productCount := 0
              categories := []
              confidence := 0
              evidence := ["Analysis failed: " ++ msg]
              pageType := "unknown"
              title := "Unknown"
              status := .failed
              errorMessage := some msg }
        | .aiOk a =>
            { url := pageUrl
              productCount := a.productCount.getD 0
              categories := a.categories.getD []
              confidence := a.confidence.getD 0
              evidence := a.evidence.getD []
              pageType := jsOrStr a.pageType "unknown"
              title := jsOrStr title "Unknown"
              status := .completed
              errorMessage := none }

/-- The `for` loop of `analyzeWebsite` (src/unnamed/part_001 lines
386-410): analyze each discovered page in order; `env` gives the scrape
and model outcomes for the page at each loop index. -/
def runPages (env : Nat → ScrapeOutcome × AiOutcome) :
    Nat → List String → List PageAnalysis
  | _, [] => []
  | i, pageUrl :: rest =>
      analyzePageForProducts pageUrl (env i).1 (env i).2 ::
        runPages env (i + 1) rest

/-- The repeated expression `pageResults.filter(p => p.status === 'completed')`
of src/unnamed/part_001 lines 428 and 430. -/
def completedPages (prs : List PageAnalysis) : List PageAnalysis :=
  prs.filter (fun p => decide (p.status = PageStatus.completed))

/-- Result compilation of the multi-page `analyzeWebsite`
(src/unnamed/part_001 lines 382-447): the running `totalProducts`
accumulation of the loop, the `forEach` that builds `categoryBreakdown`
and `pageBreakdown` from completed pages, the success count, the rounded
average confidence and the assembled `AnalysisResult`. -/
def compileResults (discoveredPages : List String)
    (pageResults : List PageAnalysis) : AnalysisResult :=
  let totalProducts := pageResults.foldl
    (fun acc p => if p.status = PageStatus.completed then acc + p.productCount else acc) 0
  let breakdowns := pageResults.foldl
    (fun (m : List (String × Nat) × List (String × Nat)) p =>
      if p.status = PageStatus.completed then
        (p.categories.foldl (fun cm cat => recordAdd cm cat p.productCount) m.1,
         recordSet m.2 p.url p.productCount)
      else m) ([], [])
  let successfulPages := (completedPages pageResults).length
  let avgConfidence : ℤ :=
    if 0 < successfulPages then
      jsRound ((completedPages pageResults).foldl
        (fun acc p => acc + p.confidence) 0 / (successfulPages : ℚ))
    else 0
  { totalProductCount := totalProducts
    pagesAnalyzed := successfulPages
    pageResults := pageResults
    sitemap := discoveredPages
    summary := "Found " ++ toString totalProducts ++ " products across " ++
      toString successfulPages ++ " pages. Analyzed " ++
      toString discoveredPages.length ++ " pages total with " ++
      toString avgConfidence ++ "% average confidence."
    status := if 0 < successfulPages then .completed else .failed
    details :=
      { totalProducts := totalProducts
        productsByCategory := breakdowns.1
        analysisMethod := "Multi-page crawl with AI analysis per page"
        confidence := (avgConfidence : ℚ)
        pageBreakdown := breakdowns.2 } }

/-- The whole multi-page run on an already-discovered page list: the loop
followed by result compilation (src/unnamed/part_001 lines 382-447). -/
def analyzeWebsiteResult (pages : List String)
    (env : Nat → ScrapeOutcome × AiOutcome) : AnalysisResult :=
  compileResults pages (runPages env 0 pages)

/-! ### Single-page combined flow (src/src/components/ProductCounter.tsx, lines 74-357) -/

/-- The typed object returned by the text-analysis model call of the
single-page flow (its JSON schema, ProductCounter.tsx lines 190-207).
Fields the source reads through a `||` fallback or a truthiness test are
optional; the rest are the schema's required fields. -/
structure TextAnalysis where
  totalProducts : Option Nat
  productsOnThisPage : Nat
  categories : List String
  confidence : ℚ
  evidence : List String
  reasoning : String
  hasPagination : Option Bool
  paginationInfo : Option String
  estimatedTotalFromPagination : Option Nat
deriving DecidableEq, Repr

/-- The typed object returned by the screenshot-analysis model call
(ProductCounter.tsx lines 237-258). -/
structure VisualAnalysis where
  visualProductCount : Nat
  visualEvidence : List String
  layoutType : Option String
  confidence : ℚ
deriving DecidableEq, Repr

/-- Result combination of the single-page `analyzeWebsite`
(ProductCounter.tsx lines 262-316): start from `analysis.totalProducts || 0`,
replace it with a truthy pagination estimate that exceeds it, add the
surplus of the visual count over the on-page text count, average the two
confidence scores with `Math.round`, and assemble the `AnalysisResult`. -/
def combineAnalyses (validatedUrl : String) (title : Option String)
    (an : TextAnalysis) (vis : VisualAnalysis) : AnalysisResult :=
  let count0 := an.totalProducts.getD 0
  let count1 :=
    match an.estimatedTotalFromPagination with
    | some est => if est ≠ 0 ∧ count0 < est then est else count0
    | none => count0
  let finalProductCount :=
    if an.productsOnThisPage < vis.visualProductCount then
      count1 + (vis.visualProductCount - an.productsOnThisPage)
    else count1
  let combinedEvidence := an.evidence ++ vis.visualEvidence
  let avgConfidence : ℤ := jsRound ((an.confidence + vis.confidence) / 2)
  let pageAnalysis : PageAnalysis :=
    { url := validatedUrl
      productCount := finalProductCount
      categories := an.categories
      confidence := (avgConfidence : ℚ)
      evidence := combinedEvidence
      pageType := jsOrStr vis.layoutType "unknown"
      title := jsOrStr title "Unknown"
      status := .completed
      errorMessage := none }
  { totalProductCount := finalProductCount
    pagesAnalyzed := 1
    pageResults := [pageAnalysis]
    sitemap := [validatedUrl]
    summary := "Found " ++ toString finalProductCount ++ " products. " ++
      an.reasoning ++ " Visual analysis: " ++
      String.intercalate ", " vis.visualEvidence ++ "."
    status := .completed
    details :=
      { totalProducts := finalProductCount
        productsByCategory := an.categories.foldl
          (fun acc cat => recordSet acc cat finalProductCount) []
        analysisMethod := "Combined text and visual AI analysis"
        confidence := (avgConfidence : ℚ)
        pageBreakdown := [(validatedUrl, finalProductCount)] } }

/-! ### URL validation (both components, lines 62-72) -/

/-- Character-level helper for `strStartsWith`. -/
def startsWithAux : List Char → List Char → Bool
  | _, [] => true
  | [], _ :: _ => false
  | a :: s, b :: p => a == b && startsWithAux s p

/-- JavaScript `s.startsWith(p)`, computed on the character sequence. -/
def strStartsWith (s p : String) : Bool :=
  startsWithAux s.toList p.toList

/-- Shallow embedding of `validateUrl`: when the input starts with neither
scheme, the string "https://" is put in front of it; then the result is
handed to the WHATWG URL parser — modelled by the oracle `isValidUrl` —
returning `none` when the parser throws and the (possibly prefixed) string
otherwise. -/
def validateUrl (isValidUrl : String → Bool) (url : String) : Option String :=
  let u :=
    if ¬ strStartsWith url "http://" ∧ ¬ strStartsWith url "https://" then
      "https://" ++ url
    else url
  if isValidUrl u then some u else none

/-! ### CSV export (src/unnamed/part_001 lines 482-507;
ProductCounter.tsx lines 359-384 — the two copies are identical) -/

/-- The string stored in each page's `Status` CSV cell. -/
def statusText : PageStatus → String
  | .completed => "completed"
  | .failed => "failed"
  | .skipped => "skipped"

/-- The fixed CSV header row of `exportResults`. -/
def csvHeader : List String :=
  ["Page URL", "Page Title", "Product Count", "Page Type", "Categories",
   "Confidence", "Status", "Evidence"]

/-- One CSV data row per page result. -/
def pageRow (p : PageAnalysis) : List String :=
  [p.url, p.title, toString p.productCount, p.pageType,
   String.intercalate "; " p.categories, toString p.confidence,
   statusText p.status, String.intercalate "; " p.evidence]

/-- The CSV text built by `exportResults`: every cell wrapped in double
quotes, cells joined by commas, rows joined by newlines. -/
def csvContent (r : AnalysisResult) : String :=
  String.intercalate "\n"
    ((csvHeader :: r.pageResults.map pageRow).map
      (fun row => String.intercalate ","
        (row.map (fun cell => "\"" ++ cell ++ "\""))))

/-- Shallow embedding of `exportResults`: `none` means no download action
was triggered; `some s` means a client-side download of CSV content `s`
was triggered.  The source's only guard is `if (!result) return`. -/
def exportResults (result : Option AnalysisResult) : Option String :=
  match result with
  | none => none
  | some r => some (csvContent r)

/-! ### Page discovery (src/unnamed/part_001, lines 74-202) -/

/-- Substring test, JavaScript `s.includes(pat)` for a non-empty pattern. -/
def strIncludes (s pat : String) : Bool :=
  decide ((s.splitOn pat).length ≠ 1)

/-- The regular expression test `path.match(/\/\d+/)`: the path contains a
slash immediately followed by a digit. -/
def hasSlashDigit : List Char → Bool
  | [] => false
  | [_] => false
  | a :: b :: rest => (a = '/' ∧ b.isDigit : Bool) || hasSlashDigit (b :: rest)

/-- The keyword/pattern allowlist applied to a link's lowercased pathname
(src/unnamed/part_001 lines 97-111). -/
def linkQualifies (path : String) : Bool :=
  strIncludes path "/product" || strIncludes path "/item" ||
  strIncludes path "/shop" || strIncludes path "/store" ||
  strIncludes path "/category" || strIncludes path "/collection" ||
  strIncludes path "/catalog" || strIncludes path "/p/" ||
  strIncludes path "/products/" || strIncludes path "/items/" ||
  hasSlashDigit path.toList || strIncludes path "page=" ||
  decide (3 < path.length)

/-- JavaScript `Set.add` on an insertion-ordered string set. -/
def insertUniq (l : List String) (x : String) : List String :=
  if x ∈ l then l else l ++ [x]

/-- What `new URL(link, baseUrl)` yields for one scraped link when it
parses: hostname, pathname and the serialized `href`. -/
structure LinkInfo where
  hostname : String
  pathname : String
  href : String
deriving DecidableEq, Repr

/-- The body of the `links.forEach` of src/unnamed/part_001 lines 90-118:
skip unparseable links, keep same-host links whose lowercased path matches
the allowlist. -/
def addLink (domain : String) (acc : List String) (li : Option LinkInfo) :
    List String :=
  match li with
  | none => acc
  | some info =>
      if info.hostname = domain then
        if linkQualifies info.pathname.toLower then insertUniq acc info.href
        else acc
      else acc

/-- Outcome of `blink.data.fetch` on one candidate sitemap URL: the fetch
throws, or returns a status and body.  `locs` lists, for each `<loc>` match
extracted from the body, the trimmed URL text together with its hostname
when `new URL` parses it. -/
inductive SitemapOutcome where
  | fetchErr
  | resp (status : Nat) (bodyTruthy : Bool) (locs : List (String × Option String))
deriving DecidableEq, Repr

/-- The `<loc>`-processing `forEach` of src/unnamed/part_001 lines 144-154:
add each extracted URL whose hostname equals the base domain. -/
def addSitemapUrls (domain : String) (acc : List String)
    (locs : List (String × Option String)) : List String :=
  locs.foldl
    (fun a loc =>
      match loc.2 with
      | some h => if h = domain then insertUniq a loc.1 else a
      | none => a) acc

/-- The sitemap loop of src/unnamed/part_001 lines 130-161: try the three
candidate sitemap URLs in order; process the first response with status 200
and a truthy body, then stop; skip fetch errors and other responses. -/
def processSitemaps (domain : String) (acc : List String) :
    List SitemapOutcome → List String
  | [] => acc
  | SitemapOutcome.fetchErr :: rest => processSitemaps domain acc rest
  | SitemapOutcome.resp status bodyTruthy locs :: rest =>
      if status = 200 ∧ bodyTruthy = true then addSitemapUrls domain acc locs
      else processSitemaps domain acc rest

/-- The product-page bucket test of src/unnamed/part_001 lines 170-173
(applied to the full lowercased URL). -/
def isProductUrl (url : String) : Bool :=
  let path := url.toLower
  strIncludes path "/product" || strIncludes path "/item" ||
    strIncludes path "/p/"

/-- The category-page bucket test of src/unnamed/part_001 lines 175-178. -/
def isCategoryUrl (url : String) : Bool :=
  let path := url.toLower
  strIncludes path "/category" || strIncludes path "/collection" ||
    strIncludes path "/shop"

/-- Bucketing and capping of src/unnamed/part_001 lines 170-189: product
pages first (up to 15), then category pages (up to 10), then the rest
(up to 5), capped at 30 in total. -/
def prioritizePages (pages : List String) : List String :=
  let productPages := pages.filter isProductUrl
  let categoryPages := pages.filter isCategoryUrl
  let otherPages := pages.filter
    (fun url => decide (url ∉ productPages ∧ url ∉ categoryPages))
  (productPages.take 15 ++ categoryPages.take 10 ++ otherPages.take 5).take 30

/-- Everything `findAllPages` gets from the outside world:
`baseHostname` is `new URL(baseUrl).hostname` (`none` when parsing throws),
`scrapedLinks` the per-link parse results of the homepage scrape (`none`
when the scrape throws), and `sitemaps` the fetch outcomes for the three
candidate sitemap URLs, in order. -/
structure DiscoveryEnv where
  baseHostname : Option String
  scrapedLinks : Option (List (Option LinkInfo))
  sitemaps : List SitemapOutcome

/-- Shallow embedding of `findAllPages` (src/unnamed/part_001 lines
74-202): collect the base URL, qualifying same-host links and same-host
sitemap URLs into an insertion-ordered set, bucket and cap the result;
on a base-URL parse failure or scrape failure return just the base URL. -/
def findAllPages (baseUrl : String) (env : DiscoveryEnv) : List String :=
  match env.baseHostname, env.scrapedLinks with
  | some domain, some links =>
      let afterLinks := links.foldl (addLink domain) [baseUrl]
      let allPages := processSitemaps domain afterLinks env.sitemaps
      prioritizePages allPages
  | _, _ => [baseUrl]

/-! ### Spec-side restatements and concrete instances used by the theorems -/

/-- Restatement, in the spec's words, of the single-page count
reconciliation: start from the text-derived total; if a pagination-derived
estimate exceeds it, use that instead; if the visual count exceeds the
text-derived same-page count, add the difference.  Compared below with the
count computed by `combineAnalyses`. -/
def specCombinedCount (textTotal onPage : Nat) (pagEstimate : Option Nat)
    (visualCount : Nat) : Nat :=
  let base :=
    match pagEstimate with
    | some est => if textTotal < est then est else textTotal
    | none => textTotal
  if onPage < visualCount then base + (visualCount - onPage) else base

/-- An association list has an entry for key `k`. -/
def hasKey (m : List (String × Nat)) (k : String) : Prop :=
  ∃ kv ∈ m, kv.1 = k

/-- A completed page result with count 4 and confidence 80. -/
def cPage1 : PageAnalysis :=
  { url := "https://a", productCount := 4, categories := ["Shoes"],
    confidence := 80, evidence := [], pageType := "category", title := "A",
    status := .completed, errorMessage := none }

/-- A completed page result with count 6 and confidence 60. -/
def cPage2 : PageAnalysis :=
  { url := "https://b", productCount := 6, categories := [],
    confidence := 60, evidence := [], pageType := "category", title := "B",
    status := .completed, errorMessage := none }

/-- A completed page result with confidence 61, used to exhibit a
non-integral confidence mean. -/
def dPage2 : PageAnalysis :=
  { url := "https://b", productCount := 6, categories := [],
    confidence := 61, evidence := [], pageType := "category", title := "B",
    status := .completed, errorMessage := none }

/-- A markdown string of 120 characters, above the 100-character minimum. -/
def longMd : String :=
  String.mk (List.replicate 120 'x')

/-- A fully populated model answer for one page. -/
def aiGood : PageAiAnalysis :=
  { productCount := some 6, pageType := some "category",
    categories := some ["Shoes"], confidence := some 80,
    evidence := some ["prices"], reasoning := some "r",
    hasPagination := some false, totalProductsIfPaginated := none }

/-- An environment in which the first page's scrape throws and every later
page succeeds with `aiGood`. -/
def envW : Nat → ScrapeOutcome × AiOutcome := fun i =>
  if i = 0 then (ScrapeOutcome.fetchFail "boom", AiOutcome.aiFail "x")
  else (ScrapeOutcome.fetched (some longMd) (some "T"), AiOutcome.aiOk aiGood)

/-- A text analysis with confidence 80 (odd confidence sum paired with
`visOdd`). -/
def anOdd : TextAnalysis :=
  { totalProducts := some 5, productsOnThisPage := 3, categories := ["X"],
    confidence := 80, evidence := [], reasoning := "r", hasPagination := none,
    paginationInfo := none, estimatedTotalFromPagination := none }

/-- A visual analysis with confidence 61. -/
def visOdd : VisualAnalysis :=
  { visualProductCount := 3, visualEvidence := [], layoutType := some "homepage",
    confidence := 61 }

/-- A text analysis with confidence 80 (even confidence sum paired with
`visEven`). -/
def anEven : TextAnalysis :=
  { totalProducts := some 5, productsOnThisPage := 3, categories := ["X"],
    confidence := 80, evidence := [], reasoning := "r", hasPagination := none,
    paginationInfo := none, estimatedTotalFromPagination := none }

/-- A visual analysis with confidence 60. -/
def visEven : VisualAnalysis :=
  { visualProductCount := 3, visualEvidence := [], layoutType := some "homepage",
    confidence := 60 }

/-- A non-null analysis result whose page-result list is empty. -/
def emptyResult : AnalysisResult :=
  { totalProductCount := 0, pagesAnalyzed := 0, pageResults := [], sitemap := [],
    summary := "", status := .failed,
    details := { totalProducts := 0, productsByCategory := [], analysisMethod := "",
                 confidence := 0, pageBreakdown := [] } }

/-! ## Theorems -/

/-- C3: in the single-page combined flow, the final product count starts
from the text-analysis total, is replaced by a pagination-derived estimate
that exceeds it, and is increased by the surplus of the visual count over
the text analysis's same-page count; in particular, for text total 5,
pagination estimate 20 and a visual count exceeding the on-page count by 2,
the final count is 22. -/
theorem combineAnalyses_final_count :
    (∀ url t an vis, (combineAnalyses url t an vis).totalProductCount =
      specCombinedCount (an.totalProducts.getD 0) an.productsOnThisPage
        an.estimatedTotalFromPagination vis.visualProductCount) ∧
    (∀ onPage : Nat,
      (combineAnalyses "https://a" (some "T")
        { totalProducts := some 5, productsOnThisPage := onPage, categories := [],
          confidence := 0, evidence := [], reasoning := "", hasPagination := none,
          paginationInfo := none, estimatedTotalFromPagination := some 20 }
        { visualProductCount := onPage + 2, visualEvidence := [], layoutType := none,
          confidence := 0 }).totalProductCount = 22) := by
  constructor
  · intro url t an vis
    simp only [combineAnalyses, specCombinedCount]
    cases an.estimatedTotalFromPagination with
    | none => rfl
    | some est =>
      by_cases h : an.totalProducts.getD 0 < est
      · have hne : est ≠ 0 := by omega
        simp [h, hne]
      · simp [h]
  · intro onPage
    have hlt : onPage < onPage + 2 := by omega
    simp [combineAnalyses, hlt]

/-- C4: `validateUrl` puts "https://" in front of an input that starts with
neither "http://" nor "https://", fails exactly when the URL-parser oracle
rejects the resulting string, and on success returns that string
unchanged. -/
theorem validateUrl_spec (isValidUrl : String → Bool) (url : String) :
    (validateUrl isValidUrl url = none ↔
      isValidUrl (if ¬ strStartsWith url "http://" ∧ ¬ strStartsWith url "https://"
        then "https://" ++ url else url) = false) ∧
    (∀ r, validateUrl isValidUrl url = some r →
      r = (if ¬ strStartsWith url "http://" ∧ ¬ strStartsWith url "https://"
        then "https://" ++ url else url)) := by
  simp only [validateUrl]
  set u := if ¬ strStartsWith url "http://" ∧ ¬ strStartsWith url "https://"
    then "https://" ++ url else url with hu
  cases hv : isValidUrl u with
  | false => simp [hv]
  | true => simp [hv]

/-- C4 witness: on the schemeless input "example.com" with an accepting
parser oracle, validation succeeds with "https://example.com". -/
theorem validateUrl_spec_witness :
    validateUrl (fun _ => true) "example.com" = some "https://example.com" ∧
    "https://example.com" =
      (if ¬ strStartsWith "example.com" "http://" ∧ ¬ strStartsWith "example.com" "https://"
       then "https://" ++ "example.com" else "example.com") :=
  ⟨by decide,
   (validateUrl_spec (fun _ => true) "example.com").2 "https://example.com" (by decide)⟩

/-- C5: when the scraped markdown is missing or shorter than 100
characters, `analyzePageForProducts` returns a failed `PageAnalysis` with
count 0 and a non-empty error message, and its result does not depend on
the generative-model outcome. -/
theorem analyzePage_short_content (url : String) (md title : Option String)
    (ai ai2 : AiOutcome) (h : shortContent md = true) :
    (analyzePageForProducts url (.fetched md title) ai).status = PageStatus.failed ∧
    (analyzePageForProducts url (.fetched md title) ai).productCount = 0 ∧
    (∃ msg, (analyzePageForProducts url (.fetched md title) ai).errorMessage = some msg ∧
      msg ≠ "") ∧
    analyzePageForProducts url (.fetched md title) ai =
      analyzePageForProducts url (.fetched md title) ai2 := by
  simp only [analyzePageForProducts]
  rw [if_pos h, if_pos h]
  exact ⟨rfl, rfl, ⟨"Could not scrape page content", rfl, by decide⟩, rfl⟩

/-- C5 witness: the two-character markdown "hi" is below the threshold and
yields a failed page result. -/
theorem analyzePage_short_content_witness :
    shortContent (some "hi") = true ∧
    (analyzePageForProducts "https://a" (.fetched (some "hi") none)
      (AiOutcome.aiFail "x")).status = PageStatus.failed :=
  ⟨by decide,
   (analyzePage_short_content "https://a" (some "hi") none (AiOutcome.aiFail "x")
      (AiOutcome.aiFail "y") (by decide)).1⟩

/-- C6 counterexample: the claim says no download is triggered for a result
whose page-result list is empty, but `exportResults` only guards against a
null result — on `emptyResult` it still triggers a download of the
header-only CSV. -/
theorem exportResults_empty_counterexample :
    exportResults (some emptyResult) = some (String.intercalate ","
      (csvHeader.map (fun cell => "\"" ++ cell ++ "\""))) := rfl

/-- C6 amended: `exportResults` triggers no download exactly for a null
result; for a non-null result with an empty page-result list it still
downloads a CSV consisting of the quoted header row alone. -/
theorem exportResults_null_guard (r : AnalysisResult) (h : r.pageResults = []) :
    exportResults none = none ∧
    exportResults (some r) = some (String.intercalate ","
      (csvHeader.map (fun cell => "\"" ++ cell ++ "\""))) := by
  refine ⟨rfl, ?_⟩
  simp only [exportResults, csvContent, h, List.map_nil]
  rfl

/-- C6 witness: the amended statement instantiated at `emptyResult`. -/
theorem exportResults_null_guard_witness :
    emptyResult.pageResults = [] ∧
    exportResults (some emptyResult) = some (String.intercalate ","
      (csvHeader.map (fun cell => "\"" ++ cell ++ "\""))) :=
  ⟨rfl, (exportResults_null_guard emptyResult rfl).2⟩

/-- C7 amended: in the single-page combined flow, the reported confidence
is the arithmetic mean of the two calls' confidence scores rounded half-up
to the nearest integer; whenever that mean is itself an integer, the
reported confidence equals the exact mean. -/
theorem combineAnalyses_confidence (url : String) (t : Option String)
    (an : TextAnalysis) (vis : VisualAnalysis) :
    (combineAnalyses url t an vis).details.confidence =
      (jsRound ((an.confidence + vis.confidence) / 2) : ℚ) ∧
    (∀ z : ℤ, (an.confidence + vis.confidence) / 2 = (z : ℚ) →
      (combineAnalyses url t an vis).details.confidence =
        (an.confidence + vis.confidence) / 2) := by
  have h1 : (combineAnalyses url t an vis).details.confidence =
      (jsRound ((an.confidence + vis.confidence) / 2) : ℚ) := rfl
  refine ⟨h1, fun z hz => ?_⟩
  rw [h1, hz]
  unfold jsRound
  rw [Int.floor_int_add]
  norm_num

/-- C7 witness: with confidence scores 80 and 60 the mean is the integer 70
and is reported exactly. -/
theorem combineAnalyses_confidence_witness :
    (anEven.confidence + visEven.confidence) / 2 = ((70 : ℤ) : ℚ) ∧
    (combineAnalyses "https://a" (some "T") anEven visEven).details.confidence =
      (anEven.confidence + visEven.confidence) / 2 :=
  ⟨by norm_num [anEven, visEven],
   (combineAnalyses_confidence "https://a" (some "T") anEven visEven).2 70
     (by norm_num [anEven, visEven])⟩

/-- C7 counterexample: the claim says the reported confidence equals the
arithmetic mean for every pair of scores, but with scores 80 and 61 the
code reports `Math.round(70.5) = 71`, which differs from the mean. -/
theorem combineAnalyses_confidence_counterexample :
    (combineAnalyses "https://a" (some "T") anOdd visOdd).details.confidence = 71 ∧
    (anOdd.confidence + visOdd.confidence) / 2 ≠ 71 := by
  constructor
  · simp [combineAnalyses, anOdd, visOdd, jsRound]
    norm_num
  · norm_num [anOdd, visOdd]

/-- Filtering the completed pages out of a cons cell. -/
theorem completedPages_cons (p : PageAnalysis) (t : List PageAnalysis) :
    completedPages (p :: t) =
      if p.status = PageStatus.completed then p :: completedPages t
      else completedPages t := by
  by_cases h : p.status = PageStatus.completed
  · simp [completedPages, List.filter_cons, h]
  · simp [completedPages, List.filter_cons, h]

/-- A fold that acts only on completed pages equals the fold over the
filtered list. -/
theorem foldl_guard_eq_filter {β : Type} (f : β → PageAnalysis → β) :
    ∀ (l : List PageAnalysis) (b : β),
      l.foldl (fun acc p =>
        if p.status = PageStatus.completed then f acc p else acc) b =
      (completedPages l).foldl f b := by
  intro l
  induction l with
  | nil => intro b; rfl
  | cons p t ih =>
    intro b
    rw [completedPages_cons]
    by_cases h : p.status = PageStatus.completed
    · simp only [List.foldl_cons, h, if_true, if_pos h, List.foldl_cons]
      exact ih (f b p)
    · simp only [List.foldl_cons, if_neg h]
      exact ih b

/-- Folding addition of a projection equals the sum of the mapped list. -/
theorem foldl_add_eq_sum {M : Type} [AddCommMonoid M] (f : PageAnalysis → M) :
    ∀ (l : List PageAnalysis) (a : M),
      l.foldl (fun acc p => acc + f p) a = a + (l.map f).sum := by
  intro l
  induction l with
  | nil => intro a; simp
  | cons p t ih =>
    intro a
    simp only [List.foldl_cons, List.map_cons, List.sum_cons, ih, add_assoc]

/-- C1 amended: the multi-page aggregate's total product count is the sum
of the completed pages' counts, and its average confidence is the mean of
the completed pages' confidence values rounded half-up to the nearest
integer (0 when no page completed); in particular, for two completed pages
with counts 4 and 6 and confidences 80 and 60, the total is 10 and the
average confidence is exactly 70. -/
theorem compileResults_aggregate (discovered : List String)
    (prs : List PageAnalysis) :
    (compileResults discovered prs).totalProductCount =
      ((completedPages prs).map (fun p => p.productCount)).sum ∧
    (compileResults discovered prs).details.confidence =
      (if (completedPages prs).length = 0 then 0
       else (jsRound (((completedPages prs).map (fun p => p.confidence)).sum /
         ((completedPages prs).length : ℚ)) : ℚ)) ∧
    (compileResults ["https://a", "https://b"] [cPage1, cPage2]).totalProductCount = 10 ∧
    (compileResults ["https://a", "https://b"] [cPage1, cPage2]).details.confidence = 70 := by
  refine ⟨?_, ?_, ?_, ?_⟩
  · show prs.foldl (fun acc p =>
        if p.status = PageStatus.completed then acc + p.productCount else acc) 0 = _
    rw [foldl_guard_eq_filter (fun acc p => acc + p.productCount) prs 0,
      foldl_add_eq_sum (fun p => p.productCount) (completedPages prs) 0]
    omega
  · show ((if 0 < (completedPages prs).length then
        jsRound ((completedPages prs).foldl (fun acc p => acc + p.confidence) 0 /
          ((completedPages prs).length : ℚ)) else 0 : ℤ) : ℚ) = _
    by_cases h : (completedPages prs).length = 0
    · simp [h]
    · have hp : 0 < (completedPages prs).length := Nat.pos_of_ne_zero h
      rw [if_pos hp, if_neg h,
        foldl_add_eq_sum (fun p => p.confidence) (completedPages prs) 0, zero_add]
  · decide
  · simp [compileResults, completedPages, cPage1, cPage2, jsRound]
    norm_num

/-- C1 counterexample: the claim says the aggregate confidence equals the
mean of the completed pages' confidences for any list, but for completed
confidences 80 and 61 the code stores `Math.round(70.5) = 71`, while the
mean is 70.5. -/
theorem compileResults_confidence_counterexample :
    (compileResults ["https://a", "https://b"] [cPage1, dPage2]).details.confidence = 71 ∧
    ((completedPages [cPage1, dPage2]).map (fun p => p.confidence)).sum /
      ((completedPages [cPage1, dPage2]).length : ℚ) ≠ 71 := by
  constructor
  · simp [compileResults, completedPages, cPage1, dPage2, jsRound]
    norm_num
  · simp [completedPages, cPage1, dPage2]
    norm_num

/-- The analysis loop yields one page result per discovered page. -/
theorem runPages_length (env : Nat → ScrapeOutcome × AiOutcome) :
    ∀ (i : Nat) (pages : List String),
      (runPages env i pages).length = pages.length := by
  intro i pages
  induction pages generalizing i with
  | nil => rfl
  | cons u rest ih => simp [runPages, ih]

/-- The page result at position `j` of the loop is the analysis of the
discovered page at position `j`, with that page's own outcomes. -/
theorem runPages_get (env : Nat → ScrapeOutcome × AiOutcome) :
    ∀ (pages : List String) (i j : Nat) (hj : j < (runPages env i pages).length)
      (hj2 : j < pages.length),
      (runPages env i pages).get ⟨j, hj⟩ =
        analyzePageForProducts (pages.get ⟨j, hj2⟩) (env (i + j)).1 (env (i + j)).2 := by
  intro pages
  induction pages with
  | nil => intro i j hj hj2; simp at hj2
  | cons u rest ih =>
    intro i j hj hj2
    cases j with
    | zero => simp [runPages]
    | succ k =>
      have hk : k < (runPages env (i + 1) rest).length := by
        simpa [runPages] using hj
      have hk2 : k < rest.length := by simpa using hj2
      rw [show i + (k + 1) = (i + 1) + k by omega]
      exact ih (i + 1) k hk hk2

/-- C8: a content-fetch failure or model-call failure on one page yields a
failed `PageAnalysis` carrying the error message instead of propagating the
error, and the multi-page loop still produces an analysis of every
discovered page at its own position. -/
theorem analyzePage_failures_isolated :
    (∀ url msg ai,
      (analyzePageForProducts url (.fetchFail msg) ai).status = PageStatus.failed ∧
      (analyzePageForProducts url (.fetchFail msg) ai).errorMessage = some msg) ∧
    (∀ url md t msg, shortContent md = false →
      (analyzePageForProducts url (.fetched md t) (.aiFail msg)).status = PageStatus.failed ∧
      (analyzePageForProducts url (.fetched md t) (.aiFail msg)).errorMessage = some msg) ∧
    (∀ env pages, (runPages env 0 pages).length = pages.length) ∧
    (∀ env pages j (hj : j < (runPages env 0 pages).length) (hj2 : j < pages.length),
      (runPages env 0 pages).get ⟨j, hj⟩ =
        analyzePageForProducts (pages.get ⟨j, hj2⟩) (env j).1 (env j).2) := by
  refine ⟨fun url msg ai => ⟨rfl, rfl⟩, ?_,
    fun env pages => runPages_length env 0 pages, ?_⟩
  · intro url md t msg h
    simp only [analyzePageForProducts]
    rw [if_neg]
    · exact ⟨rfl, rfl⟩
    · simp [h]
  · intro env pages j hj hj2
    have := runPages_get env pages 0 j hj hj2
    simpa using this

/-- C8 witness: in `envW` the first page's scrape throws, yet the run still
produces two page results, and a model-call failure on a page with long
content carries its error message. -/
theorem analyzePage_failures_isolated_witness :
    shortContent (some longMd) = false ∧
    (analyzePageForProducts "https://b" (.fetched (some longMd) (some "T"))
      (AiOutcome.aiFail "model down")).errorMessage = some "model down" ∧
    (runPages envW 0 ["https://a", "https://b"]).length = 2 :=
  ⟨by decide,
   (analyzePage_failures_isolated.2.1 "https://b" (some longMd) (some "T") "model down"
      (by decide)).2,
   analyzePage_failures_isolated.2.2.1 envW ["https://a", "https://b"]⟩

/-- C9: the multi-page result status is 'completed' exactly when at least
one page result completed and 'failed' otherwise, and the single-page flow
always reports 'completed'; the type's third status (the source literal
'partial', here `mixed`) is produced by neither flow. -/
theorem result_status_characterization :
    (∀ pages env,
      (analyzeWebsiteResult pages env).status =
        (if ∃ p ∈ runPages env 0 pages, p.status = PageStatus.completed
         then ResultStatus.completed else ResultStatus.failed) ∧
      ((analyzeWebsiteResult pages env).status = ResultStatus.completed ∨
        (analyzeWebsiteResult pages env).status = ResultStatus.failed)) ∧
    (∀ url t an vis,
      (combineAnalyses url t an vis).status = ResultStatus.completed) := by
  constructor
  · intro pages env
    have key : (analyzeWebsiteResult pages env).status =
        (if 0 < (completedPages (runPages env 0 pages)).length
         then ResultStatus.completed else ResultStatus.failed) := rfl
    have hiff : (0 < (completedPages (runPages env 0 pages)).length) ↔
        (∃ p ∈ runPages env 0 pages, p.status = PageStatus.completed) := by
      constructor
      · intro h
        obtain ⟨p, hp⟩ := List.exists_mem_of_length_pos h
        rw [completedPages, List.mem_filter] at hp
        exact ⟨p, hp.1, by simpa using hp.2⟩
      · rintro ⟨p, hp, hs⟩
        exact List.length_pos_of_mem
          (by rw [completedPages, List.mem_filter]; exact ⟨hp, by simpa using hs⟩)
    constructor
    · rw [key]
      by_cases h : ∃ p ∈ runPages env 0 pages, p.status = PageStatus.completed
      · rw [if_pos h, if_pos (hiff.mpr h)]
      · rw [if_neg h, if_neg (fun hc => h (hiff.mp hc))]
    · rw [key]
      by_cases h : 0 < (completedPages (runPages env 0 pages)).length
      · rw [if_pos h]; exact Or.inl rfl
      · rw [if_neg h]; exact Or.inr rfl
  · intro url t an vis
    exact rfl

/-- Every branch of `analyzePageForProducts` reports the analyzed URL. -/
theorem analyzePageForProducts_url (u : String) (s : ScrapeOutcome) (a : AiOutcome) :
    (analyzePageForProducts u s a).url = u := by
  cases s with
  | fetchFail msg => rfl
  | fetched md t =>
    simp only [analyzePageForProducts]
    by_cases h : shortContent md
    · rw [if_pos h]
    · rw [if_neg h]
      cases a <;> rfl

/-- The URLs of the loop's page results are the discovered pages, in
order. -/
theorem runPages_map_url (env : Nat → ScrapeOutcome × AiOutcome) :
    ∀ (i : Nat) (pages : List String),
      (runPages env i pages).map (fun p => p.url) = pages := by
  intro i pages
  induction pages generalizing i with
  | nil => rfl
  | cons u rest ih =>
    simp [runPages, analyzePageForProducts_url, ih]

/-- An entry of `recordSet m k v` is an entry of `m` or the pair
`(k, v)`. -/
theorem mem_recordSet (m : List (String × Nat)) (k : String) (v : Nat) (kv : String × Nat)
    (h : kv ∈ recordSet m k v) : kv ∈ m ∨ kv = (k, v) := by
  unfold recordSet at h
  split at h
  · obtain ⟨kv0, hkv0, heq⟩ := List.mem_map.mp h
    by_cases hk : kv0.1 = k
    · rw [if_pos hk] at heq
      exact Or.inr heq.symm
    · rw [if_neg hk] at heq
      rw [← heq]
      exact Or.inl hkv0
  · rcases List.mem_append.mp h with hm | hs
    · exact Or.inl hm
    · exact Or.inr (List.mem_singleton.mp hs)

/-- `hasKey` matches the Boolean key test used by `recordSet`. -/
theorem hasKey_iff_any (m : List (String × Nat)) (k : String) :
    hasKey m k ↔ m.any (fun kv => decide (kv.1 = k)) = true := by
  rw [List.any_eq_true]
  unfold hasKey
  simp

/-- `recordSet` establishes its own key. -/
theorem hasKey_recordSet_self (m : List (String × Nat)) (k : String) (v : Nat) :
    hasKey (recordSet m k v) k := by
  unfold recordSet
  split
  · rename_i ha
    obtain ⟨kv0, hkv0, hk0⟩ := (hasKey_iff_any m k).mpr ha
    refine ⟨(k, v), List.mem_map.mpr ⟨kv0, hkv0, by rw [if_pos hk0]⟩, rfl⟩
  · exact ⟨(k, v), List.mem_append.mpr (Or.inr (List.mem_singleton.mpr rfl)), rfl⟩

/-- `recordSet` preserves existing keys. -/
theorem hasKey_recordSet_of (m : List (String × Nat)) (k k2 : String) (v : Nat)
    (h : hasKey m k) : hasKey (recordSet m k2 v) k := by
  obtain ⟨kv, hkv, hk⟩ := h
  unfold recordSet
  split
  · by_cases hx : kv.1 = k2
    · exact ⟨(k2, v), List.mem_map.mpr ⟨kv, hkv, by rw [if_pos hx]⟩, by rw [← hx, hk]⟩
    · exact ⟨kv, List.mem_map.mpr ⟨kv, hkv, by rw [if_neg hx]⟩, hk⟩
  · exact ⟨kv, List.mem_append.mpr (Or.inl hkv), hk⟩

/-- On a fresh key, `recordSet` appends the new entry. -/
theorem recordSet_of_not_hasKey (m : List (String × Nat)) (k : String) (v : Nat)
    (h : ¬ hasKey m k) : recordSet m k v = m ++ [(k, v)] := by
  unfold recordSet
  rw [if_neg]
  intro ha
  exact h ((hasKey_iff_any m k).mpr ha)

/-- Every entry of the page-breakdown fold comes from the accumulator or
from one of the folded pages. -/
theorem breakdown_foldl_mem (l : List PageAnalysis) :
    ∀ (m : List (String × Nat)) (kv : String × Nat),
      kv ∈ l.foldl (fun m p => recordSet m p.url p.productCount) m →
      kv ∈ m ∨ ∃ p ∈ l, kv = (p.url, p.productCount) := by
  induction l with
  | nil => intro m kv h; exact Or.inl h
  | cons p t ih =>
    intro m kv h
    rcases ih (recordSet m p.url p.productCount) kv h with hm | ⟨q, hq, hkv⟩
    · rcases mem_recordSet m p.url p.productCount kv hm with hm2 | he
      · exact Or.inl hm2
      · exact Or.inr ⟨p, List.mem_cons_self p t, he⟩
    · exact Or.inr ⟨q, List.mem_cons_of_mem p hq, hkv⟩

/-- The page-breakdown fold has a key for the accumulator's keys and for
every folded page's URL. -/
theorem breakdown_foldl_hasKey (l : List PageAnalysis) :
    ∀ (m : List (String × Nat)) (k : String),
      (hasKey m k ∨ ∃ p ∈ l, p.url = k) →
      hasKey (l.foldl (fun m p => recordSet m p.url p.productCount) m) k := by
  induction l with
  | nil =>
    intro m k h
    rcases h with h | ⟨p, hp, _⟩
    · exact h
    · cases hp
  | cons p t ih =>
    intro m k h
    rcases h with h | ⟨q, hq, hk⟩
    · exact ih _ k (Or.inl (hasKey_recordSet_of m k p.url p.productCount h))
    · rcases List.mem_cons.mp hq with rfl | hq2
      · exact ih _ k
          (Or.inl (by rw [← hk]; exact hasKey_recordSet_self m q.url q.productCount))
      · exact ih _ k (Or.inr ⟨q, hq2, hk⟩)

/-- On pairwise-distinct URLs, the page-breakdown fold appends one entry
per page, in order. -/
theorem breakdown_foldl_nodup (l : List PageAnalysis) :
    ∀ (m : List (String × Nat)),
      (l.map (fun p => p.url)).Nodup →
      (∀ p ∈ l, ¬ hasKey m p.url) →
      l.foldl (fun m p => recordSet m p.url p.productCount) m =
        m ++ l.map (fun p => (p.url, p.productCount)) := by
  induction l with
  | nil => intro m _ _; simp
  | cons p t ih =>
    intro m hnd hdisj
    have hnp : ¬ hasKey m p.url := hdisj p (List.mem_cons_self p t)
    have hstep : recordSet m p.url p.productCount = m ++ [(p.url, p.productCount)] :=
      recordSet_of_not_hasKey m p.url p.productCount hnp
    have hnd2 : (t.map (fun p => p.url)).Nodup := by
      simpa using hnd.of_cons
    have hdisj2 : ∀ q ∈ t, ¬ hasKey (m ++ [(p.url, p.productCount)]) q.url := by
      intro q hq hcontra
      obtain ⟨kv, hkv, hkvk⟩ := hcontra
      rcases List.mem_append.mp hkv with hm | hs
      · exact hdisj q (List.mem_cons_of_mem p hq) ⟨kv, hm, hkvk⟩
      · have he : kv = (p.url, p.productCount) := List.mem_singleton.mp hs
        have hqp : q.url = p.url := by rw [← hkvk, he]
        have hin : p.url ∈ t.map (fun p => p.url) :=
          List.mem_map.mpr ⟨q, hq, hqp⟩
        exact (List.nodup_cons.mp (by simpa using hnd)).1 hin
    calc (p :: t).foldl (fun m p => recordSet m p.url p.productCount) m
        = t.foldl (fun m p => recordSet m p.url p.productCount)
            (m ++ [(p.url, p.productCount)]) := by rw [List.foldl_cons, hstep]
      _ = (m ++ [(p.url, p.productCount)]) ++ t.map (fun p => (p.url, p.productCount)) :=
            ih _ hnd2 hdisj2
      _ = m ++ (p :: t).map (fun p => (p.url, p.productCount)) := by simp

/-- The second component of the combined category/page breakdown fold of
`compileResults` is the page-breakdown fold alone. -/
theorem breakdowns_snd (prs : List PageAnalysis) :
    ∀ (a b : List (String × Nat)),
      (prs.foldl (fun (m : List (String × Nat) × List (String × Nat)) p =>
        if p.status = PageStatus.completed then
          (p.categories.foldl (fun cm cat => recordAdd cm cat p.productCount) m.1,
           recordSet m.2 p.url p.productCount)
        else m) (a, b)).2 =
      prs.foldl (fun m p =>
        if p.status = PageStatus.completed then recordSet m p.url p.productCount
        else m) b := by
  induction prs with
  | nil => intro a b; rfl
  | cons p t ih =>
    intro a b
    by_cases h : p.status = PageStatus.completed
    · simp only [List.foldl_cons, if_pos h]
      exact ih _ _
    · simp only [List.foldl_cons, if_neg h]
      exact ih a b

/-- The compiled page breakdown is the `recordSet` fold over the completed
pages. -/
theorem pageBreakdown_eq (discovered : List String) (prs : List PageAnalysis) :
    (compileResults discovered prs).details.pageBreakdown =
      (completedPages prs).foldl
        (fun m p => recordSet m p.url p.productCount) [] := by
  show (prs.foldl (fun (m : List (String × Nat) × List (String × Nat)) p =>
      if p.status = PageStatus.completed then
        (p.categories.foldl (fun cm cat => recordAdd cm cat p.productCount) m.1,
         recordSet m.2 p.url p.productCount)
      else m) ([], [])).2 = _
  rw [breakdowns_snd prs [] [],
    foldl_guard_eq_filter (fun m p => recordSet m p.url p.productCount) prs []]

/-- C10: the multi-page result has exactly one page result per discovered
URL in discovery order (its URL list is the sitemap list), `pagesAnalyzed`
counts the completed page results, and the page breakdown maps exactly the
completed page results' URLs to their product counts — entry for entry when
the completed URLs are pairwise distinct. -/
theorem multiPage_result_structure (pages : List String)
    (env : Nat → ScrapeOutcome × AiOutcome) :
    (analyzeWebsiteResult pages env).sitemap = pages ∧
    (analyzeWebsiteResult pages env).pageResults.map (fun p => p.url) = pages ∧
    (analyzeWebsiteResult pages env).pagesAnalyzed =
      (completedPages (analyzeWebsiteResult pages env).pageResults).length ∧
    (∀ kv ∈ (analyzeWebsiteResult pages env).details.pageBreakdown,
      ∃ p ∈ completedPages (analyzeWebsiteResult pages env).pageResults,
        kv = (p.url, p.productCount)) ∧
    (∀ p ∈ completedPages (analyzeWebsiteResult pages env).pageResults,
      hasKey (analyzeWebsiteResult pages env).details.pageBreakdown p.url) ∧
    (((completedPages (analyzeWebsiteResult pages env).pageResults).map
        (fun p => p.url)).Nodup →
      (analyzeWebsiteResult pages env).details.pageBreakdown =
        (completedPages (analyzeWebsiteResult pages env).pageResults).map
          (fun p => (p.url, p.productCount))) := by
  have hpr : (analyzeWebsiteResult pages env).pageResults = runPages env 0 pages := rfl
  have hB : (analyzeWebsiteResult pages env).details.pageBreakdown =
      (completedPages (runPages env 0 pages)).foldl
        (fun m p => recordSet m p.url p.productCount) [] :=
    pageBreakdown_eq pages (runPages env 0 pages)
  refine ⟨rfl, ?_, rfl, ?_, ?_, ?_⟩
  · rw [hpr]
    exact runPages_map_url env 0 pages
  · intro kv hkv
    rw [hB] at hkv
    rcases breakdown_foldl_mem (completedPages (runPages env 0 pages)) [] kv hkv with
      hnil | ⟨p, hp, he⟩
    · cases hnil
    · exact ⟨p, by rw [hpr]; exact hp, he⟩
  · intro p hp
    rw [hB]
    refine breakdown_foldl_hasKey (completedPages (runPages env 0 pages)) [] p.url
      (Or.inr ⟨p, ?_, rfl⟩)
    rw [hpr] at hp
    exact hp
  · intro hnd
    rw [hpr] at hnd
    rw [hB, hpr]
    refine breakdown_foldl_nodup (completedPages (runPages env 0 pages)) [] hnd ?_
    intro q hq hcontra
    obtain ⟨kv, hkv, _⟩ := hcontra
    cases hkv

set_option maxRecDepth 4000 in
/-- C10 witness: on two discovered pages under `envW` (first page fails,
second completes with count 6) the completed URLs are distinct and the
breakdown is their entry list. -/
theorem multiPage_result_structure_witness :
    ((completedPages (analyzeWebsiteResult ["https://a", "https://b"] envW).pageResults).map
      (fun p => p.url)).Nodup ∧
    (analyzeWebsiteResult ["https://a", "https://b"] envW).details.pageBreakdown =
      (completedPages (analyzeWebsiteResult ["https://a", "https://b"] envW).pageResults).map
        (fun p => (p.url, p.productCount)) :=
  ⟨by decide,
   (multiPage_result_structure ["https://a", "https://b"] envW).2.2.2.2.2 (by decide)⟩

/-- Adding to an insertion-ordered set keeps its first element. -/
theorem insertUniq_cons (b : String) (t : List String) (x : String) :
    ∃ u, insertUniq (b :: t) x = b :: u := by
  unfold insertUniq
  by_cases h : x ∈ b :: t
  · exact ⟨t, if_pos h⟩
  · exact ⟨t ++ [x], by rw [if_neg h, List.cons_append]⟩

/-- The link-collection fold keeps the base URL first. -/
theorem foldl_addLink_cons (domain : String) :
    ∀ (links : List (Option LinkInfo)) (b : String) (t : List String),
      ∃ u, links.foldl (addLink domain) (b :: t) = b :: u := by
  intro links
  induction links with
  | nil => exact fun b t => ⟨t, rfl⟩
  | cons li rest ih =>
    intro b t
    rw [List.foldl_cons]
    obtain ⟨t2, h2⟩ : ∃ t2, addLink domain (b :: t) li = b :: t2 := by
      unfold addLink
      cases li with
      | none => exact ⟨t, rfl⟩
      | some info =>
        dsimp only
        by_cases hd : info.hostname = domain
        · rw [if_pos hd]
          by_cases hq : linkQualifies info.pathname.toLower
          · rw [if_pos hq]
            exact insertUniq_cons b t info.href
          · rw [if_neg hq]
            exact ⟨t, rfl⟩
        · rw [if_neg hd]
          exact ⟨t, rfl⟩
    rw [h2]
    exact ih b t2

/-- The sitemap-URL fold keeps the base URL first. -/
theorem addSitemapUrls_cons (domain : String) :
    ∀ (locs : List (String × Option String)) (b : String) (t : List String),
      ∃ u, addSitemapUrls domain (b :: t) locs = b :: u := by
  intro locs
  induction locs with
  | nil => exact fun b t => ⟨t, rfl⟩
  | cons loc rest ih =>
    intro b t
    unfold addSitemapUrls
    rw [List.foldl_cons]
    obtain ⟨t2, h2⟩ : ∃ t2, (match loc.2 with
        | some h => if h = domain then insertUniq (b :: t) loc.1 else b :: t
        | none => b :: t) = b :: t2 := by
      cases hl : loc.2 with
      | none => exact ⟨t, rfl⟩
      | some hst =>
        dsimp only
        by_cases hd : hst = domain
        · rw [if_pos hd]
          exact insertUniq_cons b t loc.1
        · rw [if_neg hd]
          exact ⟨t, rfl⟩
    rw [h2]
    exact ih b t2

/-- The sitemap loop keeps the base URL first. -/
theorem processSitemaps_cons (domain : String) :
    ∀ (sms : List SitemapOutcome) (b : String) (t : List String),
      ∃ u, processSitemaps domain (b :: t) sms = b :: u := by
  intro sms
  induction sms with
  | nil => exact fun b t => ⟨t, rfl⟩
  | cons sm rest ih =>
    intro b t
    cases sm with
    | fetchErr => exact ih b t
    | resp status bodyTruthy locs =>
      unfold processSitemaps
      by_cases h : status = 200 ∧ bodyTruthy = true
      · rw [if_pos h]
        exact addSitemapUrls_cons domain locs b t
      · rw [if_neg h]
        exact ih b t

/-- Bucketing and capping yields at most 30 pages. -/
theorem prioritizePages_length (pages : List String) :
    (prioritizePages pages).length ≤ 30 := by
  unfold prioritizePages
  rw [List.length_take]
  exact Nat.min_le_left _ _

/-- Bucketing and capping keeps the first page: it heads whichever bucket
it falls into, and the three caps sum to the overall cap of 30. -/
theorem prioritizePages_mem_cons (b : String) (t : List String) :
    b ∈ prioritizePages (b :: t) := by
  unfold prioritizePages
  rw [List.take_of_length_le]
  · by_cases hp : isProductUrl b
    · have hf : (b :: t).filter isProductUrl = b :: t.filter isProductUrl :=
        List.filter_cons_of_pos hp
      rw [hf]
      simp [List.take_succ_cons]
    · by_cases hc : isCategoryUrl b
      · have hf : (b :: t).filter isCategoryUrl = b :: t.filter isCategoryUrl :=
          List.filter_cons_of_pos hc
        rw [hf]
        simp [List.take_succ_cons]
      · have hnp : b ∉ (b :: t).filter isProductUrl := by
          intro hmem
          exact absurd ((List.mem_filter.mp hmem).2) (by simp [hp])
        have hnc : b ∉ (b :: t).filter isCategoryUrl := by
          intro hmem
          exact absurd ((List.mem_filter.mp hmem).2) (by simp [hc])
        have hf : (b :: t).filter (fun url => decide (url ∉ (b :: t).filter isProductUrl ∧
            url ∉ (b :: t).filter isCategoryUrl)) =
            b :: t.filter (fun url => decide (url ∉ (b :: t).filter isProductUrl ∧
              url ∉ (b :: t).filter isCategoryUrl)) :=
          List.filter_cons_of_pos (by simp [hnp, hnc])
        rw [hf]
        simp [List.take_succ_cons]
  · simp only [List.length_append]
    have h1 := List.length_take_le 15 ((b :: t).filter isProductUrl)
    have h2 := List.length_take_le 10 ((b :: t).filter isCategoryUrl)
    have h3 := List.length_take_le 5 ((b :: t).filter
      (fun url => decide (url ∉ (b :: t).filter isProductUrl ∧
        url ∉ (b :: t).filter isCategoryUrl)))
    omega

/-- C2: for every base URL and every outcome of link scraping and sitemap
fetching, `findAllPages` returns at most 30 URLs and always contains the
base URL; when parsing the base URL or scraping the homepage fails, it
returns exactly the one-element list with the base URL. -/
theorem findAllPages_spec (baseUrl : String) (env : DiscoveryEnv) :
    (findAllPages baseUrl env).length ≤ 30 ∧
    baseUrl ∈ findAllPages baseUrl env ∧
    ((env.baseHostname = none ∨ env.scrapedLinks = none) →
      findAllPages baseUrl env = [baseUrl]) := by
  rcases env with ⟨bh, sl, sm⟩
  cases bh with
  | none =>
    have e : findAllPages baseUrl ⟨none, sl, sm⟩ = [baseUrl] := rfl
    rw [e]
    exact ⟨by norm_num, List.mem_singleton.mpr rfl, fun _ => rfl⟩
  | some domain =>
    cases sl with
    | none =>
      have e : findAllPages baseUrl ⟨some domain, none, sm⟩ = [baseUrl] := rfl
      rw [e]
      exact ⟨by norm_num, List.mem_singleton.mpr rfl, fun _ => rfl⟩
    | some links =>
      obtain ⟨t1, h1⟩ := foldl_addLink_cons domain links baseUrl []
      obtain ⟨u, hu⟩ : ∃ u, processSitemaps domain
          (links.foldl (addLink domain) [baseUrl]) sm = baseUrl :: u := by
        rw [h1]
        exact processSitemaps_cons domain sm baseUrl t1
      have heq : findAllPages baseUrl ⟨some domain, some links, sm⟩ =
          prioritizePages (baseUrl :: u) := by
        simp only [findAllPages]
        rw [hu]
      refine ⟨?_, ?_, ?_⟩
      · rw [heq]
        exact prioritizePages_length _
      · rw [heq]
        exact prioritizePages_mem_cons baseUrl u
      · rintro (h | h) <;> cases h

/-- C2 witness: in an environment whose base-URL parse fails, discovery
returns exactly the base URL. -/
theorem findAllPages_spec_witness :
    ((⟨none, none, []⟩ : DiscoveryEnv).baseHostname = none ∨
      (⟨none, none, []⟩ : DiscoveryEnv).scrapedLinks = none) ∧
    findAllPages "https://example.com" ⟨none, none, []⟩ = ["https://example.com"] :=
  ⟨Or.inl rfl,
   (findAllPages_spec "https://example.com" ⟨none, none, []⟩).2.2 (Or.inl rfl)⟩

end ProductCounter
